import Mathlib

/-!
Verification of the tunneling-relay worker (`src/v1.js`) against its
natural-language specification.

The JavaScript source is shallowly embedded: a decoded handshake blob
(a `Uint8Array` in the source) becomes a `List Nat` of byte values;
`data[i]` on a typed array yields the byte when `i` is in bounds and
`undefined` otherwise, which we model with `List.get?`; `subarray`
clamps its bounds, which we model with take/drop.  Effectful parts
(socket connection, WebSocket events, stream plumbing) are modelled as
pure functions over explicit event lists / outcome environments,
mirroring the single-threaded cooperative semantics of the worker
runtime.
-/

namespace V1

/-- The statically configured 16-byte secret (`UUID` constant in the source). -/
def UUID : List Nat :=
  [0x55, 0xd9, 0xec, 0x38, 0x1b, 0x8a, 0x45, 0x4b,
   0x98, 0x1a, 0x6a, 0xcf, 0xe8, 0xf5, 0x6d, 0x8c]

/-- Fallback relay host (`PROXY_HOST`). -/
def PROXY_HOST : String := "sjc.o00o.ooo"

/-- Fallback relay port (`PROXY_PORT`). -/
def PROXY_PORT : Nat := 443

def ATYPE_IPV4 : Nat := 1
def ATYPE_DOMAIN : Nat := 2
def ATYPE_IPV6 : Nat := 3

/-- Unicode replacement character U+FFFD, emitted by `TextDecoder` on
invalid UTF-8 input. -/
def replChar : Char := Char.ofNat 0xFFFD

/-- Is `b1` a valid second byte of a multi-byte UTF-8 sequence whose first
byte is `b0`?  (WHATWG ranges: `0xe0` needs `0xa0..0xbf`, `0xed` needs
`0x80..0x9f`, `0xf0` needs `0x90..0xbf`, `0xf4` needs `0x80..0x8f`;
otherwise `0x80..0xbf`.) -/
def validCont2 (b0 b1 : Nat) : Bool :=
  (0x80 ≤ b1 && b1 ≤ 0xbf)
  && (b0 != 0xe0 || 0xa0 ≤ b1)
  && (b0 != 0xed || b1 ≤ 0x9f)
  && (b0 != 0xf0 || 0x90 ≤ b1)
  && (b0 != 0xf4 || b1 ≤ 0x8f)

/-- Is `b` a valid UTF-8 continuation byte? -/
def validCont (b : Nat) : Bool := 0x80 ≤ b && b ≤ 0xbf

/-- Model of `TextDecoder.prototype.decode` (UTF-8, non-fatal): decode a
byte list to characters, emitting U+FFFD for invalid sequences. -/
def utf8Decode : List Nat → List Char
  | [] => []
  | b0 :: rest =>
    if b0 < 0x80 then
      Char.ofNat b0 :: utf8Decode rest
    else if 0xc2 ≤ b0 && b0 ≤ 0xdf then
      match rest with
      | [] => [replChar]
      | b1 :: rest1 =>
        if validCont b1 then
          Char.ofNat ((b0 - 0xc0) * 64 + (b1 - 0x80)) :: utf8Decode rest1
        else
          replChar :: utf8Decode (b1 :: rest1)
    else if 0xe0 ≤ b0 && b0 ≤ 0xef then
      match rest with
      | [] => [replChar]
      | b1 :: rest1 =>
        if !validCont2 b0 b1 then
          replChar :: utf8Decode (b1 :: rest1)
        else
          match rest1 with
          | [] => [replChar]
          | b2 :: rest2 =>
            if validCont b2 then
              Char.ofNat ((b0 - 0xe0) * 4096 + (b1 - 0x80) * 64 + (b2 - 0x80))
                :: utf8Decode rest2
            else
              replChar :: utf8Decode (b2 :: rest2)
    else if 0xf0 ≤ b0 && b0 ≤ 0xf4 then
      match rest with
      | [] => [replChar]
      | b1 :: rest1 =>
        if !validCont2 b0 b1 then
          replChar :: utf8Decode (b1 :: rest1)
        else
          match rest1 with
          | [] => [replChar]
          | b2 :: rest2 =>
            if !validCont b2 then
              replChar :: utf8Decode (b2 :: rest2)
            else
              match rest2 with
              | [] => [replChar]
              | b3 :: rest3 =>
                if validCont b3 then
                  Char.ofNat ((b0 - 0xf0) * 262144 + (b1 - 0x80) * 4096
                      + (b2 - 0x80) * 64 + (b3 - 0x80))
                    :: utf8Decode rest3
                else
                  replChar :: utf8Decode (b3 :: rest3)
    else
      replChar :: utf8Decode rest

/-- Model of `decoder.decode` on a byte list, producing a `String`. -/
def decodeText (bs : List Nat) : String := String.mk (utf8Decode bs)

/-- Model of `Uint8Array.prototype.subarray(s, e)`: both indices are
clamped to the array length and an empty view results when `s ≥ e`. -/
def jsSubarray (data : List Nat) (s e : Nat) : List Nat :=
  (data.take e).drop s

/-- Model of JavaScript `n.toString(16)` for a `Nat`: lowercase
hexadecimal, no leading-zero padding. -/
def hexStr (n : Nat) : String := String.mk (Nat.toDigits 16 n)

/-- Model of `DataView.prototype.getUint16` (big-endian) at byte index
`i` of the blob: the two bytes are combined big-endian. -/
def group16 (data : List Nat) (i : Nat) : Nat :=
  data.getD i 0 * 256 + data.getD (i + 1) 0

/-- Result structure returned by `parseAddress` in the source:
`{ host, end, ok }`.  The source field `end` is a Lean keyword, so it
is named `endPos` here. -/
structure AddrResult where
  host : String
  endPos : Nat
  ok : Bool
  deriving Repr, DecidableEq

/-- Model of `parseAddress(data, offset)`.

Source behavior notes folded into the model:
* `data[offset+3]` out of bounds yields `undefined` in JS, which matches
  no `atype` and falls through to the invalid result; we model the read
  with `List.get?`.
* In the domain branch, when `data[base]` is out of bounds the source
  computes `end = base + 1 + undefined = NaN`, `NaN <= data.length` is
  `false`, and the clamped `subarray(base+1, NaN)` is empty, so the JS
  result is `{host: "", end: NaN, ok: false}`; we model that case as
  `⟨"", 0, false⟩` (the `endPos` value is irrelevant when `ok = false`).
* In the IPv4 branch an out-of-bounds `data[base+i]` renders as the
  string `"undefined"` in the template literal; `jsByteStr` models this.
  `ok` is `false` in that situation, since `end > data.length`.
* The IPv6 branch checks `end > data.length` before constructing the
  `DataView`, so all sixteen reads are in bounds. -/
def jsByteStr (data : List Nat) (i : Nat) : String :=
  match data[i]? with
  | some b => toString b
  | none => "undefined"

def parseAddress (data : List Nat) (offset : Nat) : AddrResult :=
  let atype := data[offset + 3]?
  let base := offset + 4
  if atype = some ATYPE_DOMAIN then
    match data[base]? with
    | some len =>
      let e := base + 1 + len
      { host := decodeText (jsSubarray data (base + 1) e), endPos := e,
        ok := decide (e ≤ data.length) }
    | none => { host := "", endPos := 0, ok := false }
  else if atype = some ATYPE_IPV4 then
    let e := base + 4
    { host := jsByteStr data base ++ "." ++ jsByteStr data (base + 1) ++ "."
        ++ jsByteStr data (base + 2) ++ "." ++ jsByteStr data (base + 3),
      endPos := e, ok := decide (e ≤ data.length) }
  else if atype = some ATYPE_IPV6 then
    let e := base + 16
    if e > data.length then { host := "", endPos := 0, ok := false }
    else
      { host := String.intercalate ":"
          [hexStr (group16 data base), hexStr (group16 data (base + 2)),
           hexStr (group16 data (base + 4)), hexStr (group16 data (base + 6)),
           hexStr (group16 data (base + 8)), hexStr (group16 data (base + 10)),
           hexStr (group16 data (base + 12)), hexStr (group16 data (base + 14))],
        endPos := e, ok := true }
  else
    { host := "", endPos := 0, ok := false }

/-- Model of `verifyUUID(data)`: sixteen strict equality tests between
`data[1..16]` and the configured secret.  A JS strict equality against
`undefined` (out-of-bounds read) is `false`, matching the `Option`
comparison here. -/
def verifyUUID (data : List Nat) : Bool :=
  data[1]? == UUID[0]? && data[2]? == UUID[1]?
  && data[3]? == UUID[2]? && data[4]? == UUID[3]?
  && data[5]? == UUID[4]? && data[6]? == UUID[5]?
  && data[7]? == UUID[6]? && data[8]? == UUID[7]?
  && data[9]? == UUID[8]? && data[10]? == UUID[9]?
  && data[11]? == UUID[10]? && data[12]? == UUID[11]?
  && data[13]? == UUID[12]? && data[14]? == UUID[13]?
  && data[15]? == UUID[14]? && data[16]? == UUID[15]?

/-- Outcome environment for `connectTCP`: whether the direct attempt and
the fallback attempt each succeed (an attempt fails if either `connect`
throws or awaiting `sock.opened` rejects). -/
structure ConnEnv where
  directOk : Bool
  fallbackOk : Bool
  deriving Repr, DecidableEq

/-- An established socket, identified by the endpoint it reached. -/
structure TCPSock where
  hostname : String
  port : Nat
  deriving Repr, DecidableEq

/-- Model of `connectTCP(host, port)`: one direct attempt, and on its
failure exactly one fallback attempt to `(PROXY_HOST, PROXY_PORT)`.
Besides the result we return the list of attempted `(hostname, port)`
endpoints, in order, so that attempt-counting properties are statable. -/
def connectTCP (host : String) (port : Nat) (env : ConnEnv) :
    Except Unit TCPSock × List (String × Nat) :=
  if env.directOk then
    (Except.ok ⟨host, port⟩, [(host, port)])
  else if env.fallbackOk then
    (Except.ok ⟨PROXY_HOST, PROXY_PORT⟩, [(host, port), (PROXY_HOST, PROXY_PORT)])
  else
    (Except.error (), [(host, port), (PROXY_HOST, PROXY_PORT)])

/-- The distinct return sites of `fetch` after the handshake blob has
been decoded.  `tooShort` covers both the `data.length < 18` check and
the `addrOffset + 4 > data.length` check (both `return makeResponse(400)`
in the source, named `TooShort` by the spec); `invalidAddress` is the
`!addr.ok` site; `relaying` is the successful `101` upgrade. -/
inductive Outcome where
  | tooShort
  | unauthorized
  | invalidAddress
  | unreachable
  | relaying
  deriving Repr, DecidableEq

/-- The HTTP status the source returns at each outcome site. -/
def statusOf : Outcome → Nat
  | .tooShort => 400
  | .unauthorized => 403
  | .invalidAddress => 400
  | .unreachable => 502
  | .relaying => 101

/-- Model of the validation-and-connection pipeline of `fetch`, from the
decoded blob onward (the upgrade-header, protocol-header and base64
checks precede decoding and are outside the blob-level claims).  Returns
the outcome together with the list of connection attempts made; the
attempt list is empty exactly when control never reaches `connectTCP`. -/
def fetchCore (data : List Nat) (env : ConnEnv) :
    Outcome × List (String × Nat) :=
  if data.length < 18 then (.tooShort, [])
  else if !verifyUUID data then (.unauthorized, [])
  else
    let addrOffset := 18 + data.getD 17 0
    if addrOffset + 4 > data.length then (.tooShort, [])
    else
      let port := data.getD (addrOffset + 1) 0 <<< 8 ||| data.getD (addrOffset + 2) 0
      let addr := parseAddress data addrOffset
      if !addr.ok then (.invalidAddress, [])
      else
        match connectTCP addr.host port env with
        | (Except.ok _, log) => (.relaying, log)
        | (Except.error _, log) => (.unreachable, log)

/-- One step of the downlink `WritableStream`'s `write(chunk)`: given the
`isFirst` flag, produce the updated flag and the bytes passed to
`server.send`.  The first chunk is framed as `[0, 0] ++ chunk`
(`frame[0] = 0; frame[1] = 0; frame.set(chunk, 2)`). -/
def downlinkStep (isFirst : Bool) (chunk : List Nat) : Bool × List Nat :=
  if isFirst then (false, 0 :: 0 :: chunk) else (isFirst, chunk)

/-- The downlink over a whole session: the sequence of chunks sent to
the client, given the sequence of chunks received from the destination,
threading the `isFirst` flag. -/
def downlinkRun (isFirst : Bool) : List (List Nat) → List (List Nat)
  | [] => []
  | c :: cs =>
    let s := downlinkStep isFirst c
    s.2 :: downlinkRun s.1 cs

/-- A client WebSocket message: `event.data` is either an `ArrayBuffer`
(binary frame) or a string (text frame). -/
inductive Msg where
  | binary (bytes : List Nat)
  | text (s : String)
  deriving Repr

/-- Bytes enqueued for one client message: an `ArrayBuffer` payload is
forwarded verbatim; a string payload goes through `encoder.encode`
(UTF-8). -/
def encodeMsg : Msg → List Nat
  | .binary bytes => bytes
  | .text s => s.toUTF8.toList.map UInt8.toNat

/-- The sequence of chunks the uplink `ReadableStream` enqueues toward
the destination: `start` first enqueues `data.subarray(addr.end)` when
`data.length > addr.end` (before any `message` listener can fire, since
the listener is registered afterwards in the same synchronous `start`
call and the runtime is single-threaded), then each received client
message is enqueued in arrival order. -/
def uplinkChunks (data : List Nat) (endOff : Nat) (msgs : List Msg) :
    List (List Nat) :=
  (if data.length > endOff then [data.drop endOff] else []) ++ msgs.map encodeMsg

/-- Per-session relay state: the shared `closed` flag plus the
closed-ness of the two underlying channels (`server` WebSocket and
`tcp` socket). -/
structure SessionState where
  closed : Bool
  serverClosed : Bool
  tcpClosed : Bool
  deriving Repr, DecidableEq

/-- Closing a channel: succeeds (leaving it closed) when it is open,
raises when it is already closed. -/
def closeChannel (alreadyClosed : Bool) : Except String Bool :=
  if alreadyClosed then Except.error "already closed" else Except.ok true

/-- `try { ch.close() } catch {}`: any error from closing is suppressed
and the channel's state is unchanged by the failed close. -/
def tryClose (alreadyClosed : Bool) : Bool :=
  match closeChannel alreadyClosed with
  | Except.ok b => b
  | Except.error _ => alreadyClosed

/-- Model of the shared `shutdown` closure: a no-op when `closed` is
already set; otherwise it sets `closed` and closes both channels with
errors suppressed. -/
def shutdown (st : SessionState) : SessionState :=
  if st.closed then st
  else
    { closed := true,
      serverClosed := tryClose st.serverClosed,
      tcpClosed := tryClose st.tcpClosed }

/-- `shutdown` with its error behavior made explicit: the same routine
written in the `Except` monad, where each `close` may raise and each
raise is caught on the spot.  Proving it equal to `Except.ok ∘ shutdown`
shows the routine never propagates an exception. -/
def shutdownE (st : SessionState) : Except String SessionState :=
  if st.closed then Except.ok st
  else
    let server :=
      match closeChannel st.serverClosed with
      | Except.ok b => b
      | Except.error _ => st.serverClosed
    let tcp :=
      match closeChannel st.tcpClosed with
      | Except.ok b => b
      | Except.error _ => st.tcpClosed
    Except.ok { closed := true, serverClosed := server, tcpClosed := tcp }

/-! ### Concrete blobs used to instantiate the theorems -/

/-- A well-formed handshake blob: version 0, the configured secret,
no options, command 1, port 80, domain family, domain `abc`. -/
def goodDomainBlob : List Nat :=
  [0] ++ UUID ++ [0] ++ [1, 0, 80, ATYPE_DOMAIN, 3, 97, 98, 99]

/-- A well-formed handshake blob whose domain length byte is `0`. -/
def emptyDomainBlob : List Nat :=
  [0] ++ UUID ++ [0] ++ [1, 0, 80, ATYPE_DOMAIN, 0]

/-- A 20-byte blob whose family byte (at offset 3) is IPv6 and whose
address bytes encode the groups `[0x2001, 0x0db8, 0, 0, 0, 0, 0, 1]`. -/
def ipv6Blob : List Nat :=
  [0, 0, 0, ATYPE_IPV6, 0x20, 0x01, 0x0d, 0xb8, 0, 0, 0, 0, 0, 0, 0, 0, 0, 0, 0, 1]

/-! ### Helper lemmas -/

/-- `verifyUUID` is the conjunction of the sixteen pointwise equalities
between `data[1..16]` and the secret: all-or-nothing, no partial match. -/
theorem verifyUUID_eq_true_iff (data : List Nat) :
    verifyUUID data = true ↔ ∀ i, i < 16 → data[i + 1]? = UUID[i]? := by
  constructor
  · intro h i hi
    simp only [verifyUUID, Bool.and_eq_true, beq_iff_eq] at h
    interval_cases i <;> simp_all
  · intro h
    simp only [verifyUUID, Bool.and_eq_true, beq_iff_eq]
    and_intros
    · exact h 0 (by omega)
    · exact h 1 (by omega)
    · exact h 2 (by omega)
    · exact h 3 (by omega)
    · exact h 4 (by omega)
    · exact h 5 (by omega)
    · exact h 6 (by omega)
    · exact h 7 (by omega)
    · exact h 8 (by omega)
    · exact h 9 (by omega)
    · exact h 10 (by omega)
    · exact h 11 (by omega)
    · exact h 12 (by omega)
    · exact h 13 (by omega)
    · exact h 14 (by omega)
    · exact h 15 (by omega)

/-- General characterization of the domain branch of `parseAddress`:
with the family byte equal to `ATYPE_DOMAIN`, a length byte `L` in
bounds, and the whole domain in bounds, the result is valid, ends at
`offset + 5 + L`, and the host decodes exactly the `L` domain bytes. -/
theorem parseAddress_domain_eq (data : List Nat) (offset L : Nat)
    (hfam : data[offset + 3]? = some ATYPE_DOMAIN)
    (hlen : data[offset + 4]? = some L)
    (hbound : offset + 5 + L ≤ data.length) :
    parseAddress data offset =
      { host := decodeText ((data.drop (offset + 5)).take L),
        endPos := offset + 5 + L, ok := true } := by
  unfold parseAddress
  simp only [hfam, hlen, if_pos rfl]
  have hsub : jsSubarray data (offset + 4 + 1) (offset + 4 + 1 + L) =
      (data.drop (offset + 5)).take L := by
    unfold jsSubarray
    rw [List.drop_take]
    congr 1
    omega
  have harith : offset + 4 + 1 + L = offset + 5 + L := by omega
  rw [harith] at hsub ⊢
  rw [hsub]
  simp [decide_eq_true_eq, hbound]

/-- Exhaustive case analysis of `fetchCore`: exactly one of the five
return sites is reached, determined by the blob checks in source order
(length, credential, options-offset bound, address validity). -/
theorem fetchCore_spec (data : List Nat) (env : ConnEnv) :
    (data.length < 18 ∧ fetchCore data env = (Outcome.tooShort, [])) ∨
    (18 ≤ data.length ∧ verifyUUID data = false ∧
      fetchCore data env = (Outcome.unauthorized, [])) ∨
    (18 ≤ data.length ∧ verifyUUID data = true ∧
      data.length < 18 + data.getD 17 0 + 4 ∧
      fetchCore data env = (Outcome.tooShort, [])) ∨
    (18 ≤ data.length ∧ verifyUUID data = true ∧
      18 + data.getD 17 0 + 4 ≤ data.length ∧
      (parseAddress data (18 + data.getD 17 0)).ok = false ∧
      fetchCore data env = (Outcome.invalidAddress, [])) ∨
    (18 ≤ data.length ∧ verifyUUID data = true ∧
      18 + data.getD 17 0 + 4 ≤ data.length ∧
      (parseAddress data (18 + data.getD 17 0)).ok = true ∧
      fetchCore data env =
        ((if env.directOk || env.fallbackOk then Outcome.relaying
          else Outcome.unreachable),
         (connectTCP (parseAddress data (18 + data.getD 17 0)).host
            (data.getD (18 + data.getD 17 0 + 1) 0 <<< 8 |||
              data.getD (18 + data.getD 17 0 + 2) 0) env).2)) := by
  simp only [List.getD_eq_getElem?_getD]
  by_cases h1 : data.length < 18
  · exact Or.inl ⟨h1, by simp [fetchCore, h1]⟩
  by_cases h2 : verifyUUID data = true
  · by_cases h3 : 18 + (data[17]?).getD 0 + 4 > data.length
    · refine Or.inr (Or.inr (Or.inl ⟨by omega, h2, by omega, ?_⟩))
      simp [fetchCore, h1, h2, h3]
    · by_cases h4 : (parseAddress data (18 + (data[17]?).getD 0)).ok = true
      · refine Or.inr (Or.inr (Or.inr (Or.inr ⟨by omega, h2, by omega, h4, ?_⟩)))
        rcases env with ⟨d, f⟩
        cases d <;> cases f <;> simp [fetchCore, h1, h2, h3, h4, connectTCP]
      · have h4' : (parseAddress data (18 + (data[17]?).getD 0)).ok = false := by
          simpa using h4
        refine Or.inr (Or.inr (Or.inr (Or.inl ⟨by omega, h2, by omega, h4', ?_⟩)))
        simp [fetchCore, h1, h2, h3, h4']
  · have h2' : verifyUUID data = false := by simpa using h2
    exact Or.inr (Or.inl ⟨by omega, h2', by simp [fetchCore, h1, h2']⟩)

/-- C1: for every decoded blob of length ≥ 18 whose bytes 1..16 do not
all equal the configured 16-byte secret, validation fails at the
`unauthorized` site, surfaced as status 403, regardless of every other
field; and the credential check is all-or-nothing equality over all 16
bytes (no partial-match acceptance). -/
theorem c1_unauthorized_on_credential_mismatch (data : List Nat) (env : ConnEnv)
    (hlen : 18 ≤ data.length)
    (hbad : ¬ ∀ i, i < 16 → data[i + 1]? = UUID[i]?) :
    (fetchCore data env).1 = Outcome.unauthorized ∧
    statusOf Outcome.unauthorized = 403 ∧
    (verifyUUID data = true ↔ ∀ i, i < 16 → data[i + 1]? = UUID[i]?) := by
  have hv : verifyUUID data = false := by
    rcases Bool.eq_false_or_eq_true (verifyUUID data) with h | h
    · exact absurd ((verifyUUID_eq_true_iff data).mp h) hbad
    · exact h
  rcases fetchCore_spec data env with ⟨h1, _⟩ | ⟨_, _, he⟩ |
      ⟨_, h2, _, _⟩ | ⟨_, h2, _, _, _⟩ | ⟨_, h2, _, _, _⟩
  · omega
  · exact ⟨by simp [he], rfl, verifyUUID_eq_true_iff data⟩
  · rw [h2] at hv; cases hv
  · rw [h2] at hv; cases hv
  · rw [h2] at hv; cases hv

/-- Witness for C1: an 18-byte all-zero blob is long enough, mismatches
the secret, and is rejected at the unauthorized site with status 403. -/
theorem c1_witness :
    (fetchCore (List.replicate 18 0) ⟨true, true⟩).1 = Outcome.unauthorized ∧
    statusOf Outcome.unauthorized = 403 := by
  have h := c1_unauthorized_on_credential_mismatch (List.replicate 18 0)
    ⟨true, true⟩ (by decide) (by decide)
  exact ⟨h.1, h.2.1⟩

/-- C2: the `tooShort` outcome (status 400) occurs exactly when the blob
is shorter than 18 bytes, or is at least 18 bytes, passes the credential
check, and `addrOffset + 4 > blobLength` for
`addrOffset = 18 + OptionsLength`; in either case no connection attempt
is made (and, since both checks precede the `parseAddress` call in the
source, no address parsing occurs). -/
theorem c2_tooShort_characterization (data : List Nat) (env : ConnEnv) :
    ((fetchCore data env).1 = Outcome.tooShort ↔
      (data.length < 18 ∨
        (18 ≤ data.length ∧ verifyUUID data = true ∧
          data.length < 18 + data.getD 17 0 + 4))) ∧
    ((fetchCore data env).1 = Outcome.tooShort → (fetchCore data env).2 = []) ∧
    statusOf Outcome.tooShort = 400 := by
  rcases fetchCore_spec data env with ⟨h1, he⟩ | ⟨h1, h2, he⟩ |
      ⟨h1, h2, h3, he⟩ | ⟨h1, h2, h3, h4, he⟩ | ⟨h1, h2, h3, h4, he⟩
  · rw [he]
    exact ⟨iff_of_true rfl (Or.inl h1), fun _ => rfl, rfl⟩
  · rw [he]
    refine ⟨⟨fun hx => by simp at hx, ?_⟩, fun hx => by simp at hx, rfl⟩
    rintro (hlt | ⟨_, hvu, _⟩)
    · omega
    · rw [hvu] at h2; cases h2
  · rw [he]
    exact ⟨iff_of_true rfl (Or.inr ⟨h1, h2, h3⟩), fun _ => rfl, rfl⟩
  · rw [he]
    refine ⟨⟨fun hx => by simp at hx, ?_⟩, fun hx => by simp at hx, rfl⟩
    rintro (hlt | ⟨_, _, hbound⟩) <;> omega
  · rw [he]
    rcases env with ⟨d, f⟩
    cases d <;> cases f <;>
      refine ⟨⟨fun hx => by simp at hx, ?_⟩, fun hx => by simp at hx, rfl⟩ <;>
      · rintro (hlt | ⟨_, _, hbound⟩) <;> omega

/-- Witness for C2: the empty blob is shorter than 18 bytes and lands on
the `tooShort` site. -/
theorem c2_witness :
    (fetchCore [] ⟨true, true⟩).1 = Outcome.tooShort ∧
    (fetchCore [] ⟨true, true⟩).2 = [] := by
  have h := c2_tooShort_characterization [] ⟨true, true⟩
  have h1 : (fetchCore [] ⟨true, true⟩).1 = Outcome.tooShort :=
    h.1.mpr (Or.inl (by decide))
  exact ⟨h1, h.2.1 h1⟩

/-- C3: the address resolver returns `ok = true` only when the computed
end offset fits inside the blob; any unknown family code (including an
out-of-range family byte, which reads as `undefined` in the source)
yields `ok = false`.  The resolver is a pure function of the blob: it
performs no writes (the embedding is a function `List Nat → Nat →
AddrResult`, and the clamped `subarray`/`get?` reads in its definition
touch no byte beyond `data.length`). -/
theorem c3_parseAddress_bounds (data : List Nat) (offset : Nat) :
    ((parseAddress data offset).ok = true →
      (parseAddress data offset).endPos ≤ data.length) ∧
    (∀ t, data[offset + 3]? = some t →
      t ≠ ATYPE_IPV4 → t ≠ ATYPE_DOMAIN → t ≠ ATYPE_IPV6 →
      (parseAddress data offset).ok = false) ∧
    (data[offset + 3]? = none → (parseAddress data offset).ok = false) := by
  have hd1 : (some ATYPE_IPV4 = some ATYPE_DOMAIN) = False := by
    simp [ATYPE_IPV4, ATYPE_DOMAIN]
  have hd2 : (some ATYPE_IPV6 = some ATYPE_DOMAIN) = False := by
    simp [ATYPE_IPV6, ATYPE_DOMAIN]
  have hd3 : (some ATYPE_IPV6 = some ATYPE_IPV4) = False := by
    simp [ATYPE_IPV6, ATYPE_IPV4]
  refine ⟨?_, ?_, ?_⟩
  · intro hok
    by_cases h1 : data[offset + 3]? = some ATYPE_DOMAIN
    · rcases h2 : data[offset + 4]? with _ | len
      · simp [parseAddress, h1, h2] at hok
      · simp [parseAddress, h1, h2] at hok ⊢
        omega
    · by_cases h2 : data[offset + 3]? = some ATYPE_IPV4
      · simp [parseAddress, h1, h2, hd1] at hok ⊢
        omega
      · by_cases h3 : data[offset + 3]? = some ATYPE_IPV6
        · by_cases h4 : data.length < offset + 4 + 16
          · simp [parseAddress, h1, h2, h3, hd2, hd3, h4] at hok
          · simp [parseAddress, h1, h2, h3, hd2, hd3, h4] at hok ⊢
            omega
        · simp [parseAddress, h1, h2, h3] at hok
  · intro t ht h1 h2 h3
    have e1 : (some t = some ATYPE_DOMAIN) = False := by simp; exact h2
    have e2 : (some t = some ATYPE_IPV4) = False := by simp; exact h1
    have e3 : (some t = some ATYPE_IPV6) = False := by simp; exact h3
    simp [parseAddress, ht, e1, e2, e3]
  · intro ht
    simp [parseAddress, ht]

/-- Witness for C3: a 20-byte IPv6 blob satisfies the bound, and an
unknown family code 9 is rejected. -/
theorem c3_witness :
    (parseAddress ipv6Blob 0).endPos ≤ ipv6Blob.length ∧
    (parseAddress [0, 0, 0, 9] 0).ok = false := by
  constructor
  · exact (c3_parseAddress_bounds ipv6Blob 0).1 (by decide)
  · exact (c3_parseAddress_bounds [0, 0, 0, 9] 0).2.1 9 (by decide)
      (by decide) (by decide) (by decide)

/-- C4: for a domain-family address with length byte `L` entirely in
bounds, the resolver returns a valid descriptor ending at
`addrOffset + 5 + L` whose host is the text decoding of exactly the `L`
bytes at offsets `addrOffset+5 .. addrOffset+4+L` (the length byte
excluded). -/
theorem c4_domain_parse (data : List Nat) (offset L : Nat)
    (hfam : data[offset + 3]? = some ATYPE_DOMAIN)
    (hlen : data[offset + 4]? = some L)
    (hbound : offset + 5 + L ≤ data.length) :
    parseAddress data offset =
      { host := decodeText ((data.drop (offset + 5)).take L),
        endPos := offset + 5 + L, ok := true } :=
  parseAddress_domain_eq data offset L hfam hlen hbound

/-- Witness for C4: on the concrete blob with domain `abc` (length 3 at
offset 22), the descriptor ends at 26 and the host decodes bytes 23–25. -/
theorem c4_witness :
    parseAddress goodDomainBlob 18 =
      { host := decodeText ((goodDomainBlob.drop 23).take 3),
        endPos := 26, ok := true } :=
  c4_domain_parse goodDomainBlob 18 3 (by decide) (by decide) (by decide)

/-- C5: for an IPv6-family address entirely in bounds, the resolver
returns `endPos = addrOffset + 20` and a host made of the 8 big-endian
16-bit groups of the 16 address bytes, each rendered as lowercase
hexadecimal without padding and joined with `:` (no zero-compression);
in particular the groups `[0x2001, 0x0db8, 0, 0, 0, 0, 0, 1]` yield the
host string `2001:db8:0:0:0:0:0:1`. -/
theorem c5_ipv6_parse (data : List Nat) (offset : Nat)
    (hfam : data[offset + 3]? = some ATYPE_IPV6)
    (hbound : offset + 20 ≤ data.length) :
    parseAddress data offset =
      { host := String.intercalate ":"
          ((List.range 8).map fun i => hexStr (group16 data (offset + 4 + 2 * i))),
        endPos := offset + 20, ok := true } ∧
    parseAddress ipv6Blob 0 =
      { host := "2001:db8:0:0:0:0:0:1", endPos := 20, ok := true } := by
  constructor
  · have hd2 : (some ATYPE_IPV6 = some ATYPE_DOMAIN) = False := by
      simp [ATYPE_IPV6, ATYPE_DOMAIN]
    have hd3 : (some ATYPE_IPV6 = some ATYPE_IPV4) = False := by
      simp [ATYPE_IPV6, ATYPE_IPV4]
    have h4 : ¬ (data.length < offset + 4 + 16) := by omega
    have harith : offset + 4 + 16 = offset + 20 := by omega
    have hrange : List.range 8 = [0, 1, 2, 3, 4, 5, 6, 7] := rfl
    simp [parseAddress, hfam, hd2, hd3, h4, harith, hrange]
  · decide

/-- Witness for C5: instantiating the general IPv6 theorem on the
concrete 20-byte blob gives the uncompressed lowercase host string. -/
theorem c5_witness :
    parseAddress ipv6Blob 0 =
      { host := "2001:db8:0:0:0:0:0:1", endPos := 20, ok := true } :=
  (c5_ipv6_parse ipv6Blob 0 (by decide) (by decide)).2

/-- C6: `connectTCP` makes exactly one direct attempt to `(host, port)`;
on its failure it makes exactly one fallback attempt to the configured
`(PROXY_HOST, PROXY_PORT)`; there is never a third attempt; the overall
operation fails exactly when both attempts fail, in which case `fetch`
returns the single `unreachable` outcome, surfaced as status 502, after
exactly two attempts. -/
theorem c6_single_fallback (host : String) (port : Nat) (env : ConnEnv)
    (data : List Nat) :
    ((connectTCP host port env).2 =
      (if env.directOk then [(host, port)]
       else [(host, port), (PROXY_HOST, PROXY_PORT)])) ∧
    ((connectTCP host port env).1 = Except.error () ↔
      env.directOk = false ∧ env.fallbackOk = false) ∧
    ((connectTCP host port env).2).length ≤ 2 ∧
    (env.directOk = false → env.fallbackOk = false →
      (fetchCore data env).2 ≠ [] →
      (fetchCore data env).1 = Outcome.unreachable ∧
      statusOf Outcome.unreachable = 502 ∧
      ((fetchCore data env).2).length = 2) := by
  obtain ⟨d, f⟩ := env
  refine ⟨?_, ?_, ?_, ?_⟩
  · cases d <;> cases f <;> simp [connectTCP]
  · cases d <;> cases f <;> simp [connectTCP]
  · cases d <;> cases f <;> simp [connectTCP]
  · intro hd hf hne
    rcases fetchCore_spec data ⟨d, f⟩ with ⟨_, he⟩ | ⟨_, _, he⟩ |
        ⟨_, _, _, he⟩ | ⟨_, _, _, _, he⟩ | ⟨_, _, _, _, he⟩
    · rw [he] at hne; simp at hne
    · rw [he] at hne; simp at hne
    · rw [he] at hne; simp at hne
    · rw [he] at hne; simp at hne
    · simp only at hd hf
      subst hd; subst hf
      rw [he]
      simp [connectTCP, statusOf]

/-- Witness for C6: with both attempts failing on a valid handshake, the
outcome is `unreachable` (502) after exactly the two logged attempts. -/
theorem c6_witness :
    (fetchCore goodDomainBlob ⟨false, false⟩).1 = Outcome.unreachable ∧
    ((fetchCore goodDomainBlob ⟨false, false⟩).2).length = 2 := by
  have h := (c6_single_fallback "example.com" 80 ⟨false, false⟩
    goodDomainBlob).2.2.2 rfl rfl (by decide)
  exact ⟨h.1, h.2.2⟩

/-- Forwarding with the first-chunk flag already cleared is the
identity on every chunk. -/
theorem downlinkRun_false (l : List (List Nat)) : downlinkRun false l = l := by
  induction l with
  | nil => rfl
  | cons c cs ih => simp [downlinkRun, downlinkStep, ih]

/-- C7: the first chunk written to the client is the two bytes
`0x00 0x00` followed by the first destination chunk unmodified, and
every later chunk is forwarded exactly as received — the 2-byte header
is emitted exactly once per session. -/
theorem c7_downlink_first_frame (c : List Nat) (rest : List (List Nat)) :
    downlinkRun true (c :: rest) = (0 :: 0 :: c) :: rest := by
  simp [downlinkRun, downlinkStep, downlinkRun_false]

/-- C8: the destination-bound byte stream is exactly the handshake bytes
past the address descriptor's end, followed by the encoded client
messages in order — so any trailing payload precedes every
client-message byte; and when the blob has no bytes past the end offset,
nothing is enqueued before the client messages. -/
theorem c8_uplink_order (data : List Nat) (endOff : Nat) (msgs : List Msg) :
    (uplinkChunks data endOff msgs).flatten =
      data.drop endOff ++ (msgs.map encodeMsg).flatten ∧
    (data.length ≤ endOff → uplinkChunks data endOff msgs = msgs.map encodeMsg) := by
  constructor
  · by_cases h : endOff < data.length
    · simp [uplinkChunks, h]
    · have hnil : data.drop endOff = [] := List.drop_eq_nil_of_le (by omega)
      simp [uplinkChunks, h, hnil]
  · intro h
    have hn : ¬ (endOff < data.length) := by omega
    simp [uplinkChunks, hn]

/-- Witness for C8: the 26-byte domain blob has no bytes past end offset
26, so only the client message is forwarded. -/
theorem c8_witness :
    uplinkChunks goodDomainBlob 26 [Msg.binary [1, 2]] =
      [Msg.binary [1, 2]].map encodeMsg :=
  (c8_uplink_order goodDomainBlob 26 [Msg.binary [1, 2]]).2 (by decide)

/-- C9: the shared shutdown routine is idempotent — the first invocation
sets the `closed` flag and closes both channels (suppressing errors from
closing an already-closed channel), every later invocation is a no-op
that changes nothing, and the routine never propagates an exception. -/
theorem c9_shutdown_idempotent (st : SessionState) :
    (st.closed = false →
      shutdown st = ⟨true, true, true⟩) ∧
    (st.closed = true → shutdown st = st) ∧
    shutdown (shutdown st) = shutdown st ∧
    shutdownE st = Except.ok (shutdown st) := by
  rcases st with ⟨c, s, t⟩
  cases c <;> cases s <;> cases t <;>
    exact ⟨by simp [shutdown, tryClose, closeChannel],
      by simp [shutdown, tryClose, closeChannel],
      by simp [shutdown, tryClose, closeChannel],
      by simp [shutdown, shutdownE, tryClose, closeChannel]⟩

/-- Witness for C9: from a fully open session, one shutdown closes
everything. -/
theorem c9_witness :
    shutdown ⟨false, false, false⟩ = ⟨true, true, true⟩ :=
  (c9_shutdown_idempotent ⟨false, false, false⟩).1 rfl

/-- C10: a domain-family address whose length byte is 0 is accepted
whenever `addrOffset + 5 ≤ blobLength`: the descriptor is valid with
empty host and `endPos = addrOffset + 5`, and on a concrete handshake
carrying such an address the pipeline proceeds to attempt a connection
to the empty hostname (here reaching `relaying` with attempt log
`[("", 80)]`) instead of rejecting the handshake. -/
theorem c10_empty_domain_accepted (data : List Nat) (offset : Nat)
    (hfam : data[offset + 3]? = some ATYPE_DOMAIN)
    (hzero : data[offset + 4]? = some 0)
    (hbound : offset + 5 ≤ data.length) :
    parseAddress data offset =
      { host := "", endPos := offset + 5, ok := true } ∧
    fetchCore emptyDomainBlob ⟨true, true⟩ =
      (Outcome.relaying, [("", 80)]) := by
  constructor
  · have h := parseAddress_domain_eq data offset 0 hfam hzero (by omega)
    rw [h]
    simp [decodeText, utf8Decode]
  · decide

/-- Witness for C10: the concrete zero-length-domain blob parses to the
empty host with end offset 23. -/
theorem c10_witness :
    parseAddress emptyDomainBlob 18 =
      { host := "", endPos := 23, ok := true } :=
  (c10_empty_domain_accepted emptyDomainBlob 18 (by decide) (by decide)
    (by decide)).1

end V1
